import Mathlib

/-!
Verification of `src/imitation/algorithms/bc.py` (behavioural cloning).

The TensorFlow-1 graph/session runtime is shallowly embedded:

* a trainable variable is a record of its full name (a path of scope
  components), its initializer value and its current value; numeric arrays
  are modelled as `List Int` whose length stands for the array shape
  (dtype is abstracted away);
* the graph/session state is the ordered list of trainable variables, in
  creation order (`tf.get_collection` returns them in this order);
* `tf.get_variable` inside a `tf.variable_scope` creates a variable whose
  full name is the scope path extended by the variable name, and raises a
  `ValueError` when a variable of that full name already exists (the
  policies used here build their parameters with `get_variable`, without
  `reuse`);
* `sess.run(assign_ops, feed_dict)` first validates every fed array
  against the shape of the placeholder it feeds (the placeholders in
  `set_tf_vars` are shaped by the destination variables), raising a
  `ValueError` before any assignment runs on a mismatch, and otherwise
  performs all assignments;
* Python exceptions are an `Except` error type distinguishing
  `AssertionError` (plain `assert`), `AttributeError`, `TypeError` and
  `ValueError`;
* real-valued losses are modelled over `ℚ`, idealizing IEEE floats;
* the batch iteration of the external `stable_baselines` `Dataset`
  (`iterate_once`), described in spec section 4.2, emits batches of exactly
  `batch_size` while at least `batch_size` samples remain, so one pass
  yields `n_samples / batch_size` full batches and drops the trailing
  partial batch; its shuffle is an arbitrary parameter of the training
  loop, constrained to be a permutation where a theorem needs it.
-/

namespace BC

/-- Python exceptions raised by the code paths modelled here. The spec's
error taxonomy maps onto these: its ConfigurationError / ShapeMismatchError
/ RecordCorruptError name the `assert` failures (`AssertionError`) at the
corresponding detection sites, and its NoActiveSessionError the session
asserts (sessions are not modelled: all claims assume an active session). -/
inductive PyError where
  | assertionError (msg : String)
  | attributeError (msg : String)
  | typeError (msg : String)
  | valueError (msg : String)
deriving Repr, DecidableEq

/-- A TensorFlow trainable variable: full name (path of scope components),
initializer and current value. A value's length models the array shape. -/
structure TFVar where
  name : List String
  init : List Int
  value : List Int
deriving Repr, DecidableEq

/-- The ambient TF graph plus session state: all trainable variables, in
creation order. -/
abbrev TFGraph := List TFVar

/-- Value of the named variable, if present (first match in creation order). -/
def lookupVar : TFGraph → List String → Option (List Int)
  | [], _ => none
  | v :: g, n => if v.name = n then some v.value else lookupVar g n

/-- Whether the graph has a variable of this full name. -/
def containsVar (g : TFGraph) (n : List String) : Bool :=
  (lookupVar g n).isSome

/-- `tf.get_variable` without `reuse`: fails when the full name is taken,
otherwise appends a variable initialized to `init`. -/
def createVariable (g : TFGraph) (n : List String) (init : List Int) :
    Except PyError TFGraph :=
  if containsVar g n then
    .error (.valueError "Variable already exists, disallowed")
  else
    .ok (g ++ [⟨n, init, init⟩])

/-- `tf.get_collection(TRAINABLE_VARIABLES, scope)`: the names of the
variables whose full name lies under `scope`, in creation order. -/
def collectTrainable (g : TFGraph) (scope : List String) : List (List String) :=
  (g.filter fun v => scope.isPrefixOf v.name).map fun v => v.name

/-- `sess.run(tf.global_variables_initializer())`: every variable is reset
to its initializer. -/
def globalVariablesInit (g : TFGraph) : TFGraph :=
  g.map fun v => { v with value := v.init }

/-- `tf.assign(var, value)` executed in the session: the named variable now
holds `value`. -/
def assignVar : TFGraph → List String → List Int → TFGraph
  | [], _, _ => []
  | v :: g, n, value =>
    (if v.name = n then { v with value := value } else v) :: assignVar g n value

/-- All the assignments of one `sess.run(assign_ops, feed_dict)` call. -/
def assignList (g : TFGraph) (pairs : List (List String × List Int)) : TFGraph :=
  pairs.foldl (fun g p => assignVar g p.1 p.2) g

/-- Feed validation for one placeholder: the placeholder is shaped by the
destination variable, so the fed array must have that variable's shape. -/
def shapeOk (g : TFGraph) (n : List String) (value : List Int) : Bool :=
  match lookupVar g n with
  | some w => w.length == value.length
  | none => false

/-- The scope/tf_vars resolution at the top of `set_tf_vars`: scope xor
explicit variable list, `assert` otherwise. -/
def resolveVars (g : TFGraph) (scope : Option (List String))
    (tf_vars : Option (List (List String))) : Except PyError (List (List String)) :=
  match scope, tf_vars with
  | some _, some _ => .error (.assertionError "must give either tf_vars xor scope kwargs")
  | some s, none => .ok (collectTrainable g s)
  | none, some vs => .ok vs
  | none, none => .error (.assertionError "must give either tf_vars xor scope kwargs")

/-- `set_tf_vars(values=…, scope=…, tf_vars=…)`: resolve the destination
variables, `assert` that there are as many values as variables, then feed
one placeholder per variable (shaped by that variable) and run all assign
ops; `sess.run` validates every fed shape before any assignment executes. -/
def set_tf_vars (g : TFGraph) (values : List (List Int))
    (scope : Option (List String)) (tf_vars : Option (List (List String))) :
    Except PyError TFGraph :=
  match resolveVars g scope tf_vars with
  | .error e => .error e
  | .ok names =>
    if names.length = values.length then
      if (names.zip values).all fun p => shapeOk g p.1 p.2 then
        .ok (assignList g (names.zip values))
      else
        .error (.valueError "Cannot feed value: incompatible placeholder shape")
    else
      .error (.assertionError "tf variables but values supplied: count mismatch")

/-- A policy class applied to its construction kwargs, reduced to what the
module uses of it: the ordered relative names and initializer values of the
trainable parameters it creates under the current variable scope. The same
class with the same kwargs always yields the same template. -/
structure PolicySpec where
  params : List (String × List Int)
deriving Repr, DecidableEq

/-- The full names the policy's parameters get under `scope`. -/
def scopedNames (scope : List String) (ps : List (String × List Int)) :
    List (List String) :=
  ps.map fun p => scope ++ [p.1]

/-- The variables the policy's construction appends under `scope`. -/
def newVars (scope : List String) (ps : List (String × List Int)) : TFGraph :=
  ps.map fun p => ⟨scope ++ [p.1], p.2, p.2⟩

/-- Constructing a policy instance inside the variable scope `scope`:
`tf.get_variable` once per template parameter, in order. -/
def constructPolicy (g : TFGraph) (scope : List String) :
    List (String × List Int) → Except PyError TFGraph
  | [] => .ok g
  | p :: ps =>
    match createVariable g (scope ++ [p.1]) p.2 with
    | .error e => .error e
    | .ok g1 => constructPolicy g1 scope ps

/-- `types.Transitions`: aligned expert arrays; BC consumes `obs` and `acts`. -/
structure Transitions where
  obs : List Int
  acts : List Int
  next_obs : List Int
  rews : List Int
deriving Repr, DecidableEq

/-- The `stable_baselines` `Dataset` built by `set_expert_dataset` over the
aligned `obs`/`act` arrays (spec: Expert Dataset Adapter). -/
structure Dataset where
  samples : List (Int × Int)
deriving Repr, DecidableEq

/-- `Dataset.n_samples`. -/
def Dataset.n_samples (d : Dataset) : Nat := d.samples.length

/-- `Dataset({"obs": …, "act": …}, shuffle=True)`. -/
def datasetOfTransitions (t : Transitions) : Dataset :=
  ⟨t.obs.zip t.acts⟩

/-- The optimizer actually wired into the training op. -/
structure OptimizerSpec where
  cls : String
  kwargs : List (String × Int)
deriving Repr, DecidableEq

/-- `tf.train.AdamOptimizer()` with all-default arguments. -/
def adamOptimizerDefault : OptimizerSpec := ⟨"AdamOptimizer", []⟩

/-- `self._train_op = opt.minimize(self._log_loss)`, reduced to the
optimizer it applies. -/
structure TrainOp where
  optimizer : OptimizerSpec
deriving Repr, DecidableEq

/-- The scope `bc_supervised_loss/model` the trainer builds its policy in. -/
def bcModelScope : List String := ["bc_supervised_loss", "model"]

/-- The fixed scope string `reconstruct_policy` opens. -/
def reconstructScope : List String := ["reconstructed_policy"]

/-- The `BCTrainer` state after `__init__`: configuration, the optional
expert dataset, the collected `policy_variables` (as names) and the built
training op. -/
structure BCTrainer where
  policySpec : PolicySpec
  batch_size : Nat
  expert_dataset : Option Dataset
  policyVarNames : List (List String)
  train_op : TrainOp
deriving Repr, DecidableEq

/-- `BCTrainer.__init__`: store configuration, build the dataset when
`expert_demos` is given, build the graph (policy under
`bc_supervised_loss/model`, collect its trainable variables, hardcode
`tf.train.AdamOptimizer()` — `optimiser_cls` and `optimiser_kwargs` are
accepted but never read), then run the global variables initializer. -/
def bcInit (g : TFGraph) (expert_demos : Option Transitions)
    (policySpec : PolicySpec) (batch_size : Nat)
    (optimiser_cls : String) (optimiser_kwargs : Option (List (String × Int))) :
    Except PyError (TFGraph × BCTrainer) :=
  let expert_dataset := expert_demos.map datasetOfTransitions
  match constructPolicy g bcModelScope policySpec.params with
  | .error e => .error e
  | .ok g1 =>
    let policyVarNames := collectTrainable g1 bcModelScope
    let train_op : TrainOp := ⟨adamOptimizerDefault⟩
    let g2 := globalVariablesInit g1
    .ok (g2, ⟨policySpec, batch_size, expert_dataset, policyVarNames, train_op⟩)

/-- `BCTrainer.set_expert_dataset`. -/
def BCTrainer.set_expert_dataset (tr : BCTrainer) (expert_demos : Transitions) :
    BCTrainer :=
  { tr with expert_dataset := some (datasetOfTransitions expert_demos) }

/-- The while-loop of the external `Dataset.iterate_once` (spec section
4.2): while at least `batch_size` samples remain, emit the next
`batch_size` of them; the trailing partial batch is dropped. Structured as
fuel recursion on the remaining length so that it computes; `fuel` is
always at least `l.length` when called from `fullBatches`. -/
def fullBatchesAux (batch_size : Nat) : Nat → List (Int × Int) → List (List (Int × Int))
  | 0, _ => []
  | fuel + 1, l =>
    if 0 < batch_size ∧ batch_size ≤ l.length then
      l.take batch_size :: fullBatchesAux batch_size fuel (l.drop batch_size)
    else []

/-- One full pass of `Dataset.iterate_once(batch_size)` over the already
shuffled samples. -/
def fullBatches (batch_size : Nat) (l : List (Int × Int)) : List (List (Int × Int)) :=
  fullBatchesAux batch_size l.length l

/-- One step of the in-loop EWMA accumulation: `loss_ewma` starts as
`None`, is seeded with the first loss and then follows
`0.9 * loss_ewma + 0.1 * loss`. -/
def ewmaUpdate (acc : Option ℚ) (loss : ℚ) : Option ℚ :=
  match acc with
  | none => some loss
  | some e => some ((9 / 10) * e + (1 / 10) * loss)

/-- The EWMA accumulated over the batch losses of one epoch. -/
def ewmaFoldLoop (losses : List ℚ) : Option ℚ :=
  losses.foldl ewmaUpdate none

/-- What one epoch of `BCTrainer.train` records: the batches it ran one
optimizer step on (in order), their losses, and the `loss_ewma` reported
at epoch end. -/
structure EpochTrace where
  batches : List (List (Int × Int))
  losses : List ℚ
  loss_ewma : ℚ
deriving Repr, DecidableEq

/-- One epoch of the training loop: shuffle, iterate the full batches, run
one optimizer step per batch accumulating the loss EWMA, then format the
EWMA for the progress bar — `"% 3.4f" % None` raises `TypeError` when no
batch ran. The batch losses come from `sess.run` and are abstracted as an
oracle `loss` indexed by epoch and batch number. -/
def runEpoch (d : Dataset) (batch_size : Nat) (epoch : Nat)
    (shuffle : Nat → List (Int × Int) → List (Int × Int)) (loss : Nat → Nat → ℚ) :
    Except PyError EpochTrace :=
  let bs := fullBatches batch_size (shuffle epoch d.samples)
  let ls := (List.range bs.length).map (loss epoch)
  match ewmaFoldLoop ls with
  | some v => .ok ⟨bs, ls, v⟩
  | none => .error (.typeError "float argument required, not NoneType")

/-- The `for epoch_num in epoch_iter` loop of `BCTrainer.train`: each
iteration first reads `self.expert_dataset.n_samples`, which raises
`AttributeError` when no dataset was ever set, then runs the epoch. -/
def trainLoop (ds : Option Dataset) (batch_size : Nat)
    (shuffle : Nat → List (Int × Int) → List (Int × Int)) (loss : Nat → Nat → ℚ)
    (epoch : Nat) : Nat → Except PyError (List EpochTrace)
  | 0 => .ok []
  | rem + 1 =>
    match ds with
    | none => .error (.attributeError "NoneType object has no attribute n_samples")
    | some d =>
      match runEpoch d batch_size epoch shuffle loss with
      | .error e => .error e
      | .ok t =>
        match trainLoop ds batch_size shuffle loss (epoch + 1) rem with
        | .error e => .error e
        | .ok ts => .ok (t :: ts)

/-- `BCTrainer.train(n_epochs=…)`, parametrized by the dataset shuffle and
the batch-loss oracle. -/
def BCTrainer.train (tr : BCTrainer) (n_epochs : Nat)
    (shuffle : Nat → List (Int × Int) → List (Int × Int)) (loss : Nat → Nat → ℚ) :
    Except PyError (List EpochTrace) :=
  trainLoop tr.expert_dataset tr.batch_size shuffle loss 0 n_epochs

/-- Total optimizer steps a training run performed: one per batch. -/
def totalSteps (ts : List EpochTrace) : Nat :=
  (ts.map fun t => t.batches.length).sum

/-- The saved policy record: the pickled `class`/`kwargs` (reduced to the
parameter template they determine, see `PolicySpec`) and the ordered
parameter values. -/
structure SavedPolicyRecord where
  policySpec : PolicySpec
  params : List (List Int)
deriving Repr, DecidableEq

/-- `sess.run(self.policy_variables)`: the current values of the named
variables, in order. -/
def readParams (g : TFGraph) (names : List (List String)) : List (List Int) :=
  names.map fun n => (lookupVar g n).getD []

/-- `BCTrainer.save_policy`: record class, kwargs and current parameter
values (file I/O is abstracted into the record itself). -/
def save_policy (g : TFGraph) (tr : BCTrainer) : SavedPolicyRecord :=
  ⟨tr.policySpec, readParams g tr.policyVarNames⟩

/-- `BCTrainer.reconstruct_policy`: construct a policy of the recorded
class with the recorded kwargs inside the fixed scope
`reconstructed_policy`, then `set_tf_vars` the recorded values into that
scope. Returns the new graph and the reconstructed policy (as the names of
its parameters). -/
def reconstruct_policy (g : TFGraph) (r : SavedPolicyRecord) :
    Except PyError (TFGraph × List (List String)) :=
  match constructPolicy g reconstructScope r.policySpec.params with
  | .error e => .error e
  | .ok g1 =>
    match set_tf_vars g1 r.params (some reconstructScope) none with
    | .error e => .error e
    | .ok g2 => .ok (g2, scopedNames reconstructScope r.policySpec.params)

/-- Modelled from the spec: the recurrence the spec states for the loss
EWMA — seeded with the first loss, then
`new_ewma = 0.9 * old_ewma + 0.1 * new_loss` folded over the remaining
losses (spec section 4.3). Compared against the in-loop accumulation of
`BCTrainer.train`. -/
def specEwma (seed : ℚ) (rest : List ℚ) : ℚ :=
  rest.foldl (fun e l => (9 / 10) * e + (1 / 10) * l) seed

/-! ### Concrete instances used by the witnesses and counterexamples -/

/-- A small graph: two scalar variables `a`, `b` and one variable `c`. -/
def exGraph : TFGraph :=
  [⟨["a"], [0], [0]⟩, ⟨["b"], [0], [0]⟩, ⟨["c"], [5], [5]⟩]

/-- A one-parameter policy template (parameter `w`, a scalar). -/
def exSpec : PolicySpec := ⟨[("w", [0])]⟩

/-- A two-parameter policy template (a 2-vector `w` and a scalar `b`). -/
def exSpec2 : PolicySpec := ⟨[("w", [0, 0]), ("b", [0])]⟩

/-- A trainer graph as left by `bcInit` with `exSpec2` and then two
training steps that changed the parameter values (shapes preserved). -/
def exTrainerGraph : TFGraph :=
  [⟨["bc_supervised_loss", "model", "w"], [0, 0], [3, 4]⟩,
   ⟨["bc_supervised_loss", "model", "b"], [0], [7]⟩]

/-- The trainer owning `exTrainerGraph`. -/
def exTrainer : BCTrainer :=
  ⟨exSpec2, 32, none, scopedNames bcModelScope exSpec2.params, ⟨adamOptimizerDefault⟩⟩

/-- A saved record for `exSpec` with a parameter value of matching shape. -/
def exRecord : SavedPolicyRecord := ⟨exSpec, [[5]]⟩

/-- A corrupt record: zero recorded parameter arrays for a one-parameter
template. -/
def exCorruptRecord : SavedPolicyRecord := ⟨exSpec, []⟩

/-- The trainer `bcInit` yields for `exSpec` and `expert_demos=None`. -/
def exNoDataTrainer : BCTrainer :=
  ⟨exSpec, 32, none, [["bc_supervised_loss", "model", "w"]], ⟨adamOptimizerDefault⟩⟩

/-- The identity shuffle (a permutation, as required of a shuffle). -/
def exShuffle : Nat → List (Int × Int) → List (Int × Int) := fun _ l => l

/-- A loss oracle: the loss of batch `i` of any epoch is `i`. -/
def exLoss : Nat → Nat → ℚ := fun _ i => (i : ℚ)

/-- A 64-sample expert dataset. -/
def exDataset64 : Dataset := ⟨(List.range 64).map fun i => ((i : Int), (i : Int))⟩

/-- A trainer over `exDataset64` with batch size 16. -/
def exTrainer64 : BCTrainer :=
  ⟨exSpec, 16, some exDataset64, scopedNames bcModelScope exSpec.params,
    ⟨adamOptimizerDefault⟩⟩

/-- A loss oracle that always reports loss 0. -/
def exLossZero : Nat → Nat → ℚ := fun _ _ => 0

/-- A one-sample dataset and a trainer with batch size 1 over it. -/
def exDatasetOne : Dataset := ⟨[(0, 0)]⟩

def exTrainerOne : BCTrainer :=
  ⟨exSpec, 1, some exDatasetOne, scopedNames bcModelScope exSpec.params,
    ⟨adamOptimizerDefault⟩⟩

/-- The epoch trace `exTrainerOne.train 1 exShuffle exLossZero` produces:
one one-sample batch with loss 0, whose EWMA is its seed 0. -/
def exTraceOne : EpochTrace := ⟨[[(0, 0)]], [0], 0⟩

/-- A one-sample dataset and a trainer with batch size 2 over it. -/
def exDataset1 : Dataset := ⟨[(0, 0)]⟩

def exTrainer1 : BCTrainer :=
  ⟨exSpec, 2, some exDataset1, scopedNames bcModelScope exSpec.params,
    ⟨adamOptimizerDefault⟩⟩

/-! ### Helper lemmas about the graph operations -/

theorem lookupVar_append (g h : TFGraph) (n : List String) :
    lookupVar (g ++ h) n = (lookupVar g n).or (lookupVar h n) := by
  induction g with
  | nil => simp [lookupVar]
  | cons v g ih =>
    by_cases hv : v.name = n <;> simp [lookupVar, hv, ih]

theorem containsVar_append (g h : TFGraph) (n : List String) :
    containsVar (g ++ h) n = (containsVar g n || containsVar h n) := by
  simp [containsVar, lookupVar_append, Option.isSome_or]

theorem containsVar_iff_exists (g : TFGraph) (n : List String) :
    containsVar g n = true ↔ ∃ v ∈ g, v.name = n := by
  induction g with
  | nil => simp [containsVar, lookupVar]
  | cons v g ih =>
    by_cases hv : v.name = n <;>
      simp [containsVar, lookupVar, hv, Option.isSome] at ih ⊢ <;> tauto

theorem lookupVar_assignVar (g : TFGraph) (n m : List String) (w : List Int) :
    lookupVar (assignVar g n w) m =
      if m = n then (lookupVar g n).map (fun _ => w) else lookupVar g m := by
  induction g with
  | nil => by_cases h : m = n <;> simp [assignVar, lookupVar, h]
  | cons v g ih =>
    by_cases hv : v.name = n
    · by_cases hm : m = n
      · simp [assignVar, lookupVar, hv, hm]
      · have hnm : ¬n = m := fun h => hm h.symm
        simp [assignVar, lookupVar, hv, hm, hnm, ih]
    · by_cases hm : m = n
      · subst hm
        simp [assignVar, lookupVar, hv, ih]
      · by_cases hvm : v.name = m
        · simp [assignVar, lookupVar, hv, hvm, hm]
        · simp [assignVar, lookupVar, hv, hvm, hm, ih]

theorem containsVar_assignVar (g : TFGraph) (n m : List String) (w : List Int) :
    containsVar (assignVar g n w) m = containsVar g m := by
  by_cases h : m = n <;> simp [containsVar, lookupVar_assignVar, h]

theorem lookupVar_assignList_notMem (pairs : List (List String × List Int))
    (g : TFGraph) (n : List String) (h : n ∉ pairs.map Prod.fst) :
    lookupVar (assignList g pairs) n = lookupVar g n := by
  induction pairs generalizing g with
  | nil => rfl
  | cons q rest ih =>
    simp only [List.map_cons, List.mem_cons, not_or] at h
    simp only [assignList, List.foldl_cons]
    rw [show (List.foldl (fun g p => assignVar g p.1 p.2) (assignVar g q.1 q.2) rest)
          = assignList (assignVar g q.1 q.2) rest from rfl]
    rw [ih _ h.2, lookupVar_assignVar, if_neg h.1]

theorem lookupVar_assignList_mem (pairs : List (List String × List Int))
    (g : TFGraph) (p : List String × List Int)
    (hnd : (pairs.map Prod.fst).Nodup) (hp : p ∈ pairs)
    (hsome : (lookupVar g p.1).isSome) :
    lookupVar (assignList g pairs) p.1 = some p.2 := by
  induction pairs generalizing g with
  | nil => cases hp
  | cons q rest ih =>
    simp only [List.map_cons, List.nodup_cons] at hnd
    simp only [assignList, List.foldl_cons]
    rw [show (List.foldl (fun g p => assignVar g p.1 p.2) (assignVar g q.1 q.2) rest)
          = assignList (assignVar g q.1 q.2) rest from rfl]
    rcases List.mem_cons.mp hp with rfl | hp
    · rw [lookupVar_assignList_notMem _ _ _ hnd.1, lookupVar_assignVar, if_pos rfl]
      rcases Option.isSome_iff_exists.mp hsome with ⟨w, hw⟩
      simp [hw]
    · apply ih _ hnd.2 hp
      rw [lookupVar_assignVar]
      split
      · next h =>
          rcases Option.isSome_iff_exists.mp hsome with ⟨w, hw⟩
          rw [← h, hw]
          rfl
      · exact hsome

theorem containsVar_assignList (pairs : List (List String × List Int))
    (g : TFGraph) (n : List String) :
    containsVar (assignList g pairs) n = containsVar g n := by
  induction pairs generalizing g with
  | nil => rfl
  | cons q rest ih =>
    simp only [assignList, List.foldl_cons]
    rw [show (List.foldl (fun g p => assignVar g p.1 p.2) (assignVar g q.1 q.2) rest)
          = assignList (assignVar g q.1 q.2) rest from rfl]
    rw [ih, containsVar_assignVar]

theorem scoped_name_inj (scope : List String) (a b : String) :
    scope ++ [a] = scope ++ [b] ↔ a = b := by
  constructor
  · intro h
    have := List.append_cancel_left h
    simpa using this
  · rintro rfl; rfl

theorem isPrefixOf_scoped (scope : List String) (x : String) :
    scope.isPrefixOf (scope ++ [x]) = true := by
  simp [List.isPrefixOf_iff_prefix]

theorem lookupVar_newVars (scope : List String) (ps : List (String × List Int))
    (p : String × List Int) (hnd : (ps.map Prod.fst).Nodup) (hp : p ∈ ps) :
    lookupVar (newVars scope ps) (scope ++ [p.1]) = some p.2 := by
  induction ps with
  | nil => cases hp
  | cons q rest ih =>
    simp only [List.map_cons, List.nodup_cons] at hnd
    rcases List.mem_cons.mp hp with rfl | hp
    · simp [newVars, lookupVar]
    · have hne : ¬(scope ++ [q.1] = scope ++ [p.1]) := by
        rw [scoped_name_inj]
        intro h
        exact hnd.1 (h ▸ List.mem_map_of_mem Prod.fst hp)
      simpa [newVars, lookupVar, hne] using ih hnd.2 hp

theorem constructPolicy_ok (ps : List (String × List Int)) (g : TFGraph)
    (scope : List String)
    (hfresh : ∀ p ∈ ps, containsVar g (scope ++ [p.1]) = false)
    (hnd : (ps.map Prod.fst).Nodup) :
    constructPolicy g scope ps = .ok (g ++ newVars scope ps) := by
  induction ps generalizing g with
  | nil => simp [constructPolicy, newVars]
  | cons q rest ih =>
    simp only [List.map_cons, List.nodup_cons] at hnd
    have hq : containsVar g (scope ++ [q.1]) = false := hfresh q (List.mem_cons_self q rest)
    simp only [constructPolicy, createVariable, hq, Bool.false_eq_true, if_false]
    rw [ih _ ?_ hnd.2]
    · simp [newVars]
    · intro p hp
      rw [containsVar_append]
      have h1 : containsVar g (scope ++ [p.1]) = false := hfresh p (List.mem_cons_of_mem q hp)
      have h2 : containsVar [⟨scope ++ [q.1], q.2, q.2⟩] (scope ++ [p.1]) = false := by
        by_contra hc
        rw [Bool.not_eq_false, containsVar_iff_exists] at hc
        rcases hc with ⟨v, hv, hname⟩
        simp only [List.mem_singleton] at hv
        subst hv
        simp only [scoped_name_inj] at hname
        exact hnd.1 (hname ▸ List.mem_map_of_mem Prod.fst hp)
      simp [h1, h2]

theorem collectTrainable_append (g h : TFGraph) (s : List String) :
    collectTrainable (g ++ h) s = collectTrainable g s ++ collectTrainable h s := by
  simp [collectTrainable]

theorem collectTrainable_eq_nil (g : TFGraph) (s : List String)
    (hfresh : ∀ v ∈ g, s.isPrefixOf v.name = false) :
    collectTrainable g s = [] := by
  have : g.filter (fun v => s.isPrefixOf v.name) = [] := by
    rw [List.filter_eq_nil_iff]
    intro v hv
    simp [hfresh v hv]
  simp [collectTrainable, this]

theorem collectTrainable_newVars (s : List String) (ps : List (String × List Int)) :
    collectTrainable (newVars s ps) s = scopedNames s ps := by
  induction ps with
  | nil => rfl
  | cons q rest ih =>
    simpa [newVars, collectTrainable, scopedNames, List.filter_cons,
      isPrefixOf_scoped] using ih

theorem scopedNames_nodup (s : List String) (ps : List (String × List Int))
    (hnd : (ps.map Prod.fst).Nodup) : (scopedNames s ps).Nodup := by
  have : scopedNames s ps = (ps.map Prod.fst).map (fun a => s ++ [a]) := by
    simp [scopedNames]
  rw [this]
  exact hnd.map (fun a b h => (scoped_name_inj s a b).mp h)

theorem scopedNames_length (s : List String) (ps : List (String × List Int)) :
    (scopedNames s ps).length = ps.length := by
  simp [scopedNames]

theorem shapeOk_isSome (g : TFGraph) (n : List String) (v : List Int)
    (h : shapeOk g n v = true) : (lookupVar g n).isSome := by
  unfold shapeOk at h
  cases hl : lookupVar g n with
  | none => rw [hl] at h; cases h
  | some w => rfl

/-- Core success behaviour of `set_tf_vars` on a resolved variable list:
with as many values as (distinct) variables and every value of its
variable's shape, the call succeeds, each variable ends up holding its
value, and every other variable is untouched. -/
theorem set_tf_vars_core (g : TFGraph) (names : List (List String))
    (values : List (List Int))
    (hlen : names.length = values.length)
    (hnd : names.Nodup)
    (hshape : ∀ p ∈ names.zip values, shapeOk g p.1 p.2 = true) :
    set_tf_vars g values none (some names) = .ok (assignList g (names.zip values)) ∧
    (∀ p ∈ names.zip values,
      lookupVar (assignList g (names.zip values)) p.1 = some p.2) ∧
    (∀ n, n ∉ names → lookupVar (assignList g (names.zip values)) n = lookupVar g n) := by
  have hall : ((names.zip values).all fun p => shapeOk g p.1 p.2) = true := by
    rw [List.all_eq_true]
    exact hshape
  have hfst : (names.zip values).map Prod.fst = names :=
    List.map_fst_zip names values (le_of_eq hlen)
  refine ⟨?_, ?_, ?_⟩
  · simp [set_tf_vars, resolveVars, hlen, hall]
  · intro p hp
    exact lookupVar_assignList_mem _ _ _ (by rw [hfst]; exact hnd) hp
      (shapeOk_isSome g p.1 p.2 (hshape p hp))
  · intro n hn
    exact lookupVar_assignList_notMem _ _ _ (by rw [hfst]; exact hn)

/-- The count `assert` of `set_tf_vars` fires exactly when the resolved
variable list and the value list have different lengths, before anything
is written. -/
theorem set_tf_vars_count_mismatch (g : TFGraph) (values : List (List Int))
    (scope : Option (List String)) (tf_vars : Option (List (List String)))
    (names : List (List String))
    (hres : resolveVars g scope tf_vars = .ok names)
    (hlen : names.length ≠ values.length) :
    set_tf_vars g values scope tf_vars =
      .error (.assertionError "tf variables but values supplied: count mismatch") := by
  simp [set_tf_vars, hres, hlen]

theorem readParams_eq_of_zip (g : TFGraph) (names : List (List String))
    (values : List (List Int)) (hlen : names.length = values.length)
    (h : ∀ p ∈ names.zip values, lookupVar g p.1 = some p.2) :
    readParams g names = values := by
  induction names generalizing values with
  | nil => cases values with
    | nil => rfl
    | cons v vs => cases hlen
  | cons n ns ih =>
    cases values with
    | nil => cases hlen
    | cons v vs =>
      simp only [List.zip_cons_cons] at h
      have hn := h (n, v) (List.mem_cons_self _ _)
      simp only [readParams, List.map_cons] at *
      rw [hn]
      simp only [Option.getD_some, List.cons.injEq, true_and]
      exact ih vs (by simpa using hlen) (fun p hp => h p (List.mem_cons_of_mem _ hp))

/-! ### Lemmas about the batch iteration -/

theorem fullBatchesAux_length (B : Nat) (hB : 0 < B) :
    ∀ (fuel : Nat) (l : List (Int × Int)), l.length ≤ fuel →
      (fullBatchesAux B fuel l).length = l.length / B
  | 0, l, h => by
    have : l.length = 0 := Nat.le_zero.mp h
    simp [fullBatchesAux, this, Nat.zero_div]
  | fuel + 1, l, h => by
    by_cases hg : B ≤ l.length
    · have hdrop : (l.drop B).length = l.length - B := by simp
      have hle : (l.drop B).length ≤ fuel := by
        rw [hdrop]
        omega
      have ih := fullBatchesAux_length B hB fuel (l.drop B) hle
      simp only [fullBatchesAux, if_pos (And.intro hB hg), List.length_cons, ih, hdrop]
      rw [Nat.div_eq_sub_div hB hg]
    · have : ¬(0 < B ∧ B ≤ l.length) := fun hc => hg hc.2
      simp only [fullBatchesAux, if_neg this, List.length_nil]
      rw [Nat.div_eq_of_lt (Nat.lt_of_not_le hg)]

theorem fullBatchesAux_mem_length (B : Nat) :
    ∀ (fuel : Nat) (l : List (Int × Int)) (b : List (Int × Int)),
      b ∈ fullBatchesAux B fuel l → b.length = B
  | 0, _, _, h => by cases h
  | fuel + 1, l, b, h => by
    by_cases hg : 0 < B ∧ B ≤ l.length
    · simp only [fullBatchesAux, if_pos hg, List.mem_cons] at h
      rcases h with rfl | h
      · simp [List.length_take, Nat.min_eq_left hg.2]
      · exact fullBatchesAux_mem_length B fuel (l.drop B) b h
    · simp [fullBatchesAux, if_neg hg] at h

theorem fullBatchesAux_mem_subset (B : Nat) :
    ∀ (fuel : Nat) (l : List (Int × Int)) (b : List (Int × Int)),
      b ∈ fullBatchesAux B fuel l → ∀ x ∈ b, x ∈ l
  | 0, _, _, h => by cases h
  | fuel + 1, l, b, h => by
    by_cases hg : 0 < B ∧ B ≤ l.length
    · simp only [fullBatchesAux, if_pos hg, List.mem_cons] at h
      rcases h with rfl | h
      · exact fun x hx => List.take_subset B l hx
      · exact fun x hx =>
          List.drop_subset B l (fullBatchesAux_mem_subset B fuel (l.drop B) b h x hx)
    · simp [fullBatchesAux, if_neg hg] at h

theorem fullBatches_length (B : Nat) (l : List (Int × Int)) (hB : 0 < B) :
    (fullBatches B l).length = l.length / B :=
  fullBatchesAux_length B hB l.length l le_rfl

theorem fullBatches_mem_length (B : Nat) (l b : List (Int × Int))
    (h : b ∈ fullBatches B l) : b.length = B :=
  fullBatchesAux_mem_length B l.length l b h

theorem fullBatches_mem_subset (B : Nat) (l b : List (Int × Int))
    (h : b ∈ fullBatches B l) : ∀ x ∈ b, x ∈ l :=
  fullBatchesAux_mem_subset B l.length l b h

/-! ### Lemmas about the loss EWMA accumulation -/

theorem foldl_ewmaUpdate_some (rest : List ℚ) :
    ∀ s : ℚ, rest.foldl ewmaUpdate (some s) = some (specEwma s rest) := by
  induction rest with
  | nil => intro s; rfl
  | cons l rest ih =>
    intro s
    simp only [List.foldl_cons, ewmaUpdate, specEwma] at *
    exact ih _

theorem ewmaFoldLoop_cons (l : ℚ) (rest : List ℚ) :
    ewmaFoldLoop (l :: rest) = some (specEwma l rest) := by
  simp only [ewmaFoldLoop, List.foldl_cons, ewmaUpdate]
  exact foldl_ewmaUpdate_some rest l

/-! ### Lemmas about the training loop -/

theorem runEpoch_ok_inversion (d : Dataset) (B e : Nat)
    (shuffle : Nat → List (Int × Int) → List (Int × Int)) (loss : Nat → Nat → ℚ)
    (t : EpochTrace) (h : runEpoch d B e shuffle loss = .ok t) :
    t.batches = fullBatches B (shuffle e d.samples) ∧
    t.losses = (List.range t.batches.length).map (loss e) ∧
    t.losses ≠ [] ∧
    t.loss_ewma = specEwma t.losses.headI t.losses.tail := by
  simp only [runEpoch] at h
  cases hls : (List.range (fullBatches B (shuffle e d.samples)).length).map (loss e) with
  | nil =>
    rw [hls] at h
    simp only [ewmaFoldLoop, List.foldl_nil] at h
    cases h
  | cons l rest =>
    rw [hls, ewmaFoldLoop_cons] at h
    cases h
    simp [hls]

theorem trainLoop_ok_of_epochs (d : Dataset) (B : Nat)
    (shuffle : Nat → List (Int × Int) → List (Int × Int)) (loss : Nat → Nat → ℚ)
    (P : EpochTrace → Prop)
    (h : ∀ e, ∃ t, runEpoch d B e shuffle loss = .ok t ∧ P t) :
    ∀ (k e0 : Nat), ∃ ts, trainLoop (some d) B shuffle loss e0 k = .ok ts ∧
      ts.length = k ∧ ∀ t ∈ ts, P t
  | 0, e0 => ⟨[], rfl, rfl, by simp⟩
  | k + 1, e0 => by
    rcases h e0 with ⟨t, ht, hP⟩
    rcases trainLoop_ok_of_epochs d B shuffle loss P h k (e0 + 1) with ⟨ts, hts, hlen, hall⟩
    refine ⟨t :: ts, ?_, by simp [hlen], ?_⟩
    · simp [trainLoop, ht, hts]
    · intro u hu
      rcases List.mem_cons.mp hu with rfl | hu
      · exact hP
      · exact hall u hu

theorem trainLoop_mem (B : Nat)
    (shuffle : Nat → List (Int × Int) → List (Int × Int)) (loss : Nat → Nat → ℚ)
    (ds : Option Dataset) :
    ∀ (k e0 : Nat) (ts : List EpochTrace) (t : EpochTrace),
      trainLoop ds B shuffle loss e0 k = .ok ts → t ∈ ts →
      ∃ d e, ds = some d ∧ runEpoch d B e shuffle loss = .ok t
  | 0, e0, ts, t, h, ht => by
    cases h
    cases ht
  | k + 1, e0, ts, t, h, ht => by
    cases ds with
    | none => cases h
    | some d =>
      simp only [trainLoop] at h
      cases hre : runEpoch d B e0 shuffle loss with
      | error e => rw [hre] at h; cases h
      | ok u =>
        rw [hre] at h
        cases hrec : trainLoop (some d) B shuffle loss (e0 + 1) k with
        | error e => rw [hrec] at h; cases h
        | ok us =>
          rw [hrec] at h
          cases h
          rcases List.mem_cons.mp ht with rfl | ht
          · exact ⟨d, e0, rfl, hre⟩
          · exact trainLoop_mem B shuffle loss (some d) k (e0 + 1) us t hrec ht

theorem map_sum_const {α : Type} (ts : List α) (f : α → Nat) (c : Nat)
    (h : ∀ t ∈ ts, f t = c) : (ts.map f).sum = ts.length * c := by
  induction ts with
  | nil => simp
  | cons t ts ih =>
    simp only [List.map_cons, List.sum_cons, List.length_cons]
    rw [h t (List.mem_cons_self _ _), ih (fun u hu => h u (List.mem_cons_of_mem _ hu))]
    ring

/-! ### Lemmas about the reconstruction path -/

theorem lookupVar_eq_none_of_fresh (g : TFGraph) (n : List String)
    (h : ∀ v ∈ g, v.name ≠ n) : lookupVar g n = none := by
  rw [← Option.not_isSome_iff_eq_none]
  intro hs
  rcases (containsVar_iff_exists g n).mp hs with ⟨v, hv, hn⟩
  exact h v hv hn

theorem lookupVar_fresh_append (g h : TFGraph) (n : List String)
    (hg : ∀ v ∈ g, v.name ≠ n) : lookupVar (g ++ h) n = lookupVar h n := by
  rw [lookupVar_append, lookupVar_eq_none_of_fresh g n hg, Option.none_or]

/-- Success behaviour of `set_tf_vars` on whatever variable list the
scope/tf_vars arguments resolve to: with as many values as (distinct)
variables and every value of its variable shape, the call succeeds, each
variable ends up holding its value, and every other variable is
untouched. -/
theorem set_tf_vars_resolved (g : TFGraph) (values : List (List Int))
    (scope : Option (List String)) (tf_vars : Option (List (List String)))
    (names : List (List String))
    (hres : resolveVars g scope tf_vars = .ok names)
    (hlen : names.length = values.length)
    (hnd : names.Nodup)
    (hshape : ∀ p ∈ names.zip values, shapeOk g p.1 p.2 = true) :
    set_tf_vars g values scope tf_vars = .ok (assignList g (names.zip values)) ∧
    (∀ p ∈ names.zip values,
      lookupVar (assignList g (names.zip values)) p.1 = some p.2) ∧
    (∀ n, n ∉ names → lookupVar (assignList g (names.zip values)) n = lookupVar g n) := by
  have hall : ((names.zip values).all fun p => shapeOk g p.1 p.2) = true := by
    rw [List.all_eq_true]
    exact hshape
  have hfst : (names.zip values).map Prod.fst = names :=
    List.map_fst_zip names values (le_of_eq hlen)
  refine ⟨?_, ?_, ?_⟩
  · simp [set_tf_vars, hres, hlen, hall]
  · intro p hp
    exact lookupVar_assignList_mem _ _ _ (by rw [hfst]; exact hnd) hp
      (shapeOk_isSome g p.1 p.2 (hshape p hp))
  · intro n hn
    exact lookupVar_assignList_notMem _ _ _ (by rw [hfst]; exact hn)

theorem set_tf_vars_ok_inversion (g : TFGraph) (values : List (List Int))
    (scope : Option (List String)) (tf_vars : Option (List (List String)))
    (g' : TFGraph) (h : set_tf_vars g values scope tf_vars = .ok g') :
    ∃ names, resolveVars g scope tf_vars = .ok names ∧
      g' = assignList g (names.zip values) := by
  unfold set_tf_vars at h
  cases hres : resolveVars g scope tf_vars with
  | error e => rw [hres] at h; cases h
  | ok names =>
    rw [hres] at h
    dsimp only at h
    by_cases hlen : names.length = values.length
    · rw [if_pos hlen] at h
      by_cases hall : ((names.zip values).all fun p => shapeOk g p.1 p.2) = true
      · rw [if_pos hall] at h
        cases h
        exact ⟨names, rfl, rfl⟩
      · rw [if_neg hall] at h
        cases h
    · rw [if_neg hlen] at h
      cases h

/-- Constructing the recorded policy in the fixed `reconstructed_policy`
scope over a graph with no variables under that scope: the construction
succeeds and collecting the scope yields exactly the new parameters. -/
theorem reconstruct_fresh_setup (g : TFGraph) (ps : List (String × List Int))
    (hfresh : ∀ v ∈ g, reconstructScope.isPrefixOf v.name = false)
    (hnd : (ps.map Prod.fst).Nodup) :
    constructPolicy g reconstructScope ps = .ok (g ++ newVars reconstructScope ps) ∧
    collectTrainable (g ++ newVars reconstructScope ps) reconstructScope
      = scopedNames reconstructScope ps := by
  constructor
  · apply constructPolicy_ok _ _ _ ?_ hnd
    intro p hp
    by_contra hc
    rw [Bool.not_eq_false, containsVar_iff_exists] at hc
    rcases hc with ⟨v, hv, hname⟩
    have hpre := hfresh v hv
    rw [hname, isPrefixOf_scoped] at hpre
    cases hpre
  · rw [collectTrainable_append, collectTrainable_eq_nil g _ hfresh,
      collectTrainable_newVars, List.nil_append]

theorem fresh_name_not_in_graph (g : TFGraph)
    (hfresh : ∀ v ∈ g, reconstructScope.isPrefixOf v.name = false)
    (x : String) : ∀ v ∈ g, v.name ≠ reconstructScope ++ [x] := by
  intro v hv hname
  have hpre := hfresh v hv
  rw [hname, isPrefixOf_scoped] at hpre
  cases hpre

/-- Shape validation holds for the freshly constructed parameters whenever
the fed values have the template shapes. -/
theorem reconstruct_shapes_ok (g : TFGraph) (ps : List (String × List Int))
    (values : List (List Int))
    (hfresh : ∀ v ∈ g, reconstructScope.isPrefixOf v.name = false)
    (hnd : (ps.map Prod.fst).Nodup)
    (hshape : ∀ q ∈ ps.zip values, q.2.length = q.1.2.length) :
    ∀ p ∈ (scopedNames reconstructScope ps).zip values,
      shapeOk (g ++ newVars reconstructScope ps) p.1 p.2 = true := by
  intro p hp
  have : scopedNames reconstructScope ps = ps.map fun q => reconstructScope ++ [q.1] := rfl
  rw [this, List.zip_map_left] at hp
  rcases List.mem_map.mp hp with ⟨q, hq, rfl⟩
  have hq1 : q.1 ∈ ps := (List.of_mem_zip (by rwa [show ((q.1 : String × List Int), q.2) = q from rfl])).1
  unfold shapeOk Prod.map
  rw [lookupVar_fresh_append g _ _ (fresh_name_not_in_graph g hfresh q.1.1),
    lookupVar_newVars reconstructScope ps q.1 hnd hq1]
  simp only [id]
  rw [hshape q hq]
  simp

/-! ### Claim C2 -/

/-- Claim C2, as stated, is false: `set_tf_vars` with one value array for
one destination variable fails when the array's shape differs from the
variable's shape — the fed array of length 2 cannot feed a placeholder
shaped by the length-1 variable `a`, so the call raises instead of
succeeding. -/
theorem set_tf_vars_shape_counterexample :
    set_tf_vars exGraph [[1, 2]] none (some [["a"]]) =
      .error (.valueError "Cannot feed value: incompatible placeholder shape") := rfl

/-- Claim C2 (amended): for every N and every list of N value arrays
matched with N distinct destination variables (identified by scope or by
an explicit list), where each array has the shape of its destination
variable, `set_tf_vars` succeeds, afterwards each variable i holds exactly
the i-th input array, and no other variable is modified. -/
theorem set_tf_vars_writes_each_value (g : TFGraph) (values : List (List Int))
    (scope : Option (List String)) (tf_vars : Option (List (List String)))
    (names : List (List String))
    (hres : resolveVars g scope tf_vars = .ok names)
    (hlen : names.length = values.length)
    (hnd : names.Nodup)
    (hshape : ∀ p ∈ names.zip values, shapeOk g p.1 p.2 = true) :
    ∃ g', set_tf_vars g values scope tf_vars = .ok g' ∧
      (∀ p ∈ names.zip values, lookupVar g' p.1 = some p.2) ∧
      (∀ n, n ∉ names → lookupVar g' n = lookupVar g n) := by
  rcases set_tf_vars_resolved g values scope tf_vars names hres hlen hnd hshape with
    ⟨h1, h2, h3⟩
  exact ⟨_, h1, h2, h3⟩

/-- Witness for the amended C2: writing `[7]` to `a` and `[8]` to `b` in
`exGraph` by explicit variable list succeeds, sets both, and leaves `c`
alone. -/
theorem set_tf_vars_writes_each_value_witness :
    ∃ g', set_tf_vars exGraph [[7], [8]] none (some [["a"], ["b"]]) = .ok g' ∧
      (∀ p ∈ ([["a"], ["b"]] : List (List String)).zip [[7], [8]],
        lookupVar g' p.1 = some p.2) ∧
      (∀ n, n ∉ ([["a"], ["b"]] : List (List String)) →
        lookupVar g' n = lookupVar exGraph n) :=
  set_tf_vars_writes_each_value exGraph [[7], [8]] none (some [["a"], ["b"]])
    [["a"], ["b"]] rfl rfl (by decide) (by decide)

/-! ### Claim C8 -/

/-- Claim C8: whenever the number of supplied value arrays differs from the
number of destination variables (however those were identified), the count
`assert` of `set_tf_vars` fires — the failure the spec names
ShapeMismatchError — before anything is written: no graph state is
produced, regardless of the contents of the arrays. -/
theorem set_tf_vars_count_mismatch_raises (g : TFGraph) (values : List (List Int))
    (scope : Option (List String)) (tf_vars : Option (List (List String)))
    (names : List (List String))
    (hres : resolveVars g scope tf_vars = .ok names)
    (hcount : names.length ≠ values.length) :
    set_tf_vars g values scope tf_vars =
      .error (.assertionError "tf variables but values supplied: count mismatch") :=
  set_tf_vars_count_mismatch g values scope tf_vars names hres hcount

/-- Witness for C8: three values for the two variables under scope found in
`exGraph` when filtering by the scope of variable `a`. -/
theorem set_tf_vars_count_mismatch_raises_witness :
    set_tf_vars exGraph [[1], [2], [3]] none (some [["a"], ["b"]]) =
      .error (.assertionError "tf variables but values supplied: count mismatch") :=
  set_tf_vars_count_mismatch_raises exGraph [[1], [2], [3]] none
    (some [["a"], ["b"]]) [["a"], ["b"]] rfl (by decide)

/-! ### Claim C7 -/

/-- Claim C7: reconstructing from a record whose parameter-array count
differs from the trainable-parameter count of the policy freshly
constructed from the recorded class and kwargs fails with the
count-mismatch `assert` — the failure the spec names RecordCorruptError at
this call site. -/
theorem reconstruct_policy_count_mismatch (g : TFGraph) (r : SavedPolicyRecord)
    (hfresh : ∀ v ∈ g, reconstructScope.isPrefixOf v.name = false)
    (hnd : (r.policySpec.params.map Prod.fst).Nodup)
    (hcount : r.params.length ≠ r.policySpec.params.length) :
    reconstruct_policy g r =
      .error (.assertionError "tf variables but values supplied: count mismatch") := by
  rcases reconstruct_fresh_setup g r.policySpec.params hfresh hnd with ⟨hcons, hcol⟩
  have hmis := set_tf_vars_count_mismatch
    (g ++ newVars reconstructScope r.policySpec.params) r.params
    (some reconstructScope) none (scopedNames reconstructScope r.policySpec.params)
    (by simp [resolveVars, hcol]) (by rw [scopedNames_length]; exact fun h => hcount h.symm)
  unfold reconstruct_policy
  rw [hcons]
  dsimp only
  rw [hmis]

/-- Witness for C7: a record with zero parameter arrays for the
one-parameter template `exSpec` fails to reconstruct over the empty
graph. -/
theorem reconstruct_policy_count_mismatch_witness :
    reconstruct_policy [] exCorruptRecord =
      .error (.assertionError "tf variables but values supplied: count mismatch") :=
  reconstruct_policy_count_mismatch [] exCorruptRecord (by decide) (by decide)
    (by decide)

/-! ### Claim C6 -/

/-- Claim C6: the trainer construction is independent of `optimiser_cls`
and `optimiser_kwargs` — `__init__` never reads them — and on success the
optimizer wired into the training op is `tf.train.AdamOptimizer()` with
default arguments, so training behaviour cannot depend on either
argument. -/
theorem optimiser_args_ignored (g : TFGraph) (demos : Option Transitions)
    (spec : PolicySpec) (batch_size : Nat) (oc oc' : String)
    (okw okw' : Option (List (String × Int))) (g' : TFGraph) (tr : BCTrainer)
    (h : bcInit g demos spec batch_size oc okw = .ok (g', tr)) :
    bcInit g demos spec batch_size oc okw = bcInit g demos spec batch_size oc' okw' ∧
    tr.train_op.optimizer = adamOptimizerDefault := by
  refine ⟨rfl, ?_⟩
  unfold bcInit at h
  cases hc : constructPolicy g bcModelScope spec.params with
  | error e => rw [hc] at h; cases h
  | ok g1 =>
    rw [hc] at h
    dsimp only at h
    cases h
    rfl

/-- Witness for C6: two inits differing in both optimizer arguments. -/
theorem optimiser_args_ignored_witness :
    (bcInit [] none exSpec 32 "GradientDescentOptimizer" (some [("learning_rate", 3)]) =
      bcInit [] none exSpec 32 "RMSPropOptimizer" none) ∧
    exNoDataTrainer.train_op.optimizer = adamOptimizerDefault :=
  optimiser_args_ignored [] none exSpec 32 "GradientDescentOptimizer"
    "RMSPropOptimizer" (some [("learning_rate", 3)]) none
    [⟨["bc_supervised_loss", "model", "w"], [0], [0]⟩] exNoDataTrainer rfl

/-! ### Claim C1 -/

/-- Claim C1: `save_policy` followed by `reconstruct_policy` under the same
active session yields a policy whose ordered trainable-parameter values
equal the trainer's values at save time. Hypotheses: the trainer's
`policy_variables` are the scoped template parameters (as `__init__`
establishes them), the template parameter names are distinct, the graph
holds nothing under the `reconstructed_policy` scope yet, and the
trainer's current parameter values have the template shapes (gradient
steps preserve shape, so this is invariant under training). -/
theorem save_policy_reconstruct_roundtrip (g : TFGraph) (tr : BCTrainer)
    (hnames : tr.policyVarNames = scopedNames bcModelScope tr.policySpec.params)
    (hnd : (tr.policySpec.params.map Prod.fst).Nodup)
    (hfresh : ∀ v ∈ g, reconstructScope.isPrefixOf v.name = false)
    (hshape : ∀ q ∈ tr.policySpec.params.zip (readParams g tr.policyVarNames),
      q.2.length = q.1.2.length) :
    ∃ g2 pol, reconstruct_policy g (save_policy g tr) = .ok (g2, pol) ∧
      readParams g2 pol = (save_policy g tr).params := by
  have hvlen : (scopedNames reconstructScope tr.policySpec.params).length
      = (readParams g tr.policyVarNames).length := by
    rw [scopedNames_length, hnames]
    simp [readParams, scopedNames_length]
  rcases reconstruct_fresh_setup g tr.policySpec.params hfresh hnd with ⟨hcons, hcol⟩
  have hres : resolveVars (g ++ newVars reconstructScope tr.policySpec.params)
      (some reconstructScope) none
      = .ok (scopedNames reconstructScope tr.policySpec.params) := by
    simp [resolveVars, hcol]
  have hshapes := reconstruct_shapes_ok g tr.policySpec.params
    (readParams g tr.policyVarNames) hfresh hnd hshape
  have hnodup := scopedNames_nodup reconstructScope tr.policySpec.params hnd
  rcases set_tf_vars_resolved (g ++ newVars reconstructScope tr.policySpec.params)
      (readParams g tr.policyVarNames) (some reconstructScope) none
      (scopedNames reconstructScope tr.policySpec.params)
      hres hvlen hnodup hshapes with ⟨hok, hmem, _⟩
  refine ⟨assignList (g ++ newVars reconstructScope tr.policySpec.params)
      ((scopedNames reconstructScope tr.policySpec.params).zip
        (readParams g tr.policyVarNames)),
    scopedNames reconstructScope tr.policySpec.params, ?_, ?_⟩
  · unfold reconstruct_policy save_policy
    dsimp only
    rw [hcons]
    dsimp only
    rw [hok]
  · exact readParams_eq_of_zip _ _ _ hvlen hmem

/-- Witness for C1: a two-parameter trainer whose values were changed by
training round-trips through save and reconstruct. -/
theorem save_policy_reconstruct_roundtrip_witness :
    ∃ g2 pol, reconstruct_policy exTrainerGraph (save_policy exTrainerGraph exTrainer)
        = .ok (g2, pol) ∧
      readParams g2 pol = (save_policy exTrainerGraph exTrainer).params :=
  save_policy_reconstruct_roundtrip exTrainerGraph exTrainer rfl (by decide)
    (by decide) (by decide)

/-! ### Claim C9 -/

/-- Claim C9, as stated, is false: reconstruction does not use a fresh,
uniquely named scope per call. The first call on the empty graph builds
under the fixed scope `reconstructed_policy` and succeeds, but a second
call in the resulting graph opens the same scope name again and fails with
the variable-collision error instead of succeeding. -/
theorem reconstruct_policy_second_call_collides :
    reconstruct_policy [] exRecord =
      .ok ([⟨["reconstructed_policy", "w"], [0], [5]⟩],
        [["reconstructed_policy", "w"]]) ∧
    reconstruct_policy [⟨["reconstructed_policy", "w"], [0], [5]⟩] exRecord =
      .error (.valueError "Variable already exists, disallowed") :=
  ⟨rfl, rfl⟩

/-- Claim C9 (amended): every `reconstruct_policy` call constructs the new
policy inside the same fixed scope `reconstructed_policy` (not a fresh,
uniquely named one). A call over a graph holding nothing under that scope
can succeed, but a second successive call on the resulting graph collides
with the first and fails with the variable-already-exists error. -/
theorem reconstruct_policy_fixed_scope (g : TFGraph) (r : SavedPolicyRecord)
    (g2 : TFGraph) (pol : List (List String))
    (hne : r.policySpec.params ≠ [])
    (hfresh : ∀ v ∈ g, reconstructScope.isPrefixOf v.name = false)
    (hnd : (r.policySpec.params.map Prod.fst).Nodup)
    (hok : reconstruct_policy g r = .ok (g2, pol)) :
    pol = scopedNames reconstructScope r.policySpec.params ∧
    reconstruct_policy g2 r =
      .error (.valueError "Variable already exists, disallowed") := by
  rcases reconstruct_fresh_setup g r.policySpec.params hfresh hnd with ⟨hcons, hcol⟩
  unfold reconstruct_policy at hok
  rw [hcons] at hok
  dsimp only at hok
  cases hset : set_tf_vars (g ++ newVars reconstructScope r.policySpec.params)
      r.params (some reconstructScope) none with
  | error e => rw [hset] at hok; cases hok
  | ok gg =>
    rw [hset] at hok
    dsimp only at hok
    simp only [Except.ok.injEq, Prod.mk.injEq] at hok
    obtain ⟨hg2, hpol⟩ := hok
    refine ⟨hpol.symm, ?_⟩
    rcases set_tf_vars_ok_inversion _ _ _ _ _ hset with ⟨names, _, hgg⟩
    cases hps : r.policySpec.params with
    | nil => exact absurd hps hne
    | cons p0 rest =>
      have hcont : containsVar g2 (reconstructScope ++ [p0.1]) = true := by
        rw [← hg2, hgg, containsVar_assignList, containsVar_append]
        have : containsVar (newVars reconstructScope r.policySpec.params)
            (reconstructScope ++ [p0.1]) = true := by
          rw [hps]
          simp [newVars, containsVar, lookupVar]
        rw [this, Bool.or_true]
      unfold reconstruct_policy
      rw [hps]
      simp only [constructPolicy, createVariable, hcont, if_true]

/-- Witness for the amended C9: the concrete first call of the
counterexample, fed through the general theorem. -/
theorem reconstruct_policy_fixed_scope_witness :
    [["reconstructed_policy", "w"]] = scopedNames reconstructScope exRecord.policySpec.params ∧
    reconstruct_policy [⟨["reconstructed_policy", "w"], [0], [5]⟩] exRecord =
      .error (.valueError "Variable already exists, disallowed") :=
  reconstruct_policy_fixed_scope [] exRecord
    [⟨["reconstructed_policy", "w"], [0], [5]⟩] [["reconstructed_policy", "w"]]
    (by decide) (by decide) (by decide) rfl

/-! ### Claim C3 -/

theorem fullBatches_eq_nil_of_lt (B : Nat) (l : List (Int × Int))
    (h : l.length < B) : fullBatches B l = [] := by
  unfold fullBatches
  cases hfuel : l.length with
  | zero => rfl
  | succ m =>
    have hnot : ¬(0 < B ∧ B ≤ l.length) := fun hc => absurd hc.2 (by omega)
    simp [fullBatchesAux, hnot]

/-- Claim C3: over a dataset of N samples with batch size B, 0 < B ≤ N, and
a permuting shuffle, `train(n_epochs=k)` succeeds and performs exactly
`k * (N / B)` optimizer steps; every epoch runs exactly `N / B` batches,
each of exactly B (observation, action) pairs drawn from the dataset, so a
trailing partial batch is never used for an update. -/
theorem train_step_count (tr : BCTrainer) (d : Dataset) (N B k : Nat)
    (shuffle : Nat → List (Int × Int) → List (Int × Int)) (loss : Nat → Nat → ℚ)
    (hds : tr.expert_dataset = some d) (hB : tr.batch_size = B)
    (hN : d.n_samples = N) (hBpos : 0 < B) (hBN : B ≤ N)
    (hsh : ∀ e l, List.Perm (shuffle e l) l) :
    ∃ ts, tr.train k shuffle loss = .ok ts ∧ ts.length = k ∧
      totalSteps ts = k * (N / B) ∧
      ∀ t ∈ ts, t.batches.length = N / B ∧
        ∀ b ∈ t.batches, b.length = B ∧ ∀ x ∈ b, x ∈ d.samples := by
  have hex : ∀ e, ∃ t, runEpoch d B e shuffle loss = .ok t ∧
      (t.batches.length = N / B ∧
        ∀ b ∈ t.batches, b.length = B ∧ ∀ x ∈ b, x ∈ d.samples) := by
    intro e
    have hlen : (shuffle e d.samples).length = N := by
      rw [(hsh e d.samples).length_eq]
      exact hN
    have hbslen : (fullBatches B (shuffle e d.samples)).length = N / B := by
      rw [fullBatches_length B _ hBpos, hlen]
    have hpos : 1 ≤ N / B := (Nat.le_div_iff_mul_le hBpos).mpr (by omega)
    have hbprops : ∀ b ∈ fullBatches B (shuffle e d.samples),
        b.length = B ∧ ∀ x ∈ b, x ∈ d.samples := by
      intro b hb
      refine ⟨fullBatches_mem_length B _ b hb, fun x hx => ?_⟩
      exact (hsh e d.samples).mem_iff.mp (fullBatches_mem_subset B _ b hb x hx)
    cases hls : (List.range (fullBatches B (shuffle e d.samples)).length).map (loss e) with
    | nil =>
      exfalso
      have := congrArg List.length hls
      simp only [List.length_map, List.length_range, List.length_nil, hbslen] at this
      omega
    | cons l rest =>
      refine ⟨⟨fullBatches B (shuffle e d.samples), l :: rest, specEwma l rest⟩, ?_, ?_, ?_⟩
      · simp only [runEpoch]
        rw [hls, ewmaFoldLoop_cons]
      · exact hbslen
      · exact hbprops
  rcases trainLoop_ok_of_epochs d B shuffle loss _ hex k 0 with ⟨ts, hts, hlen, hall⟩
  refine ⟨ts, ?_, hlen, ?_, hall⟩
  · show trainLoop tr.expert_dataset tr.batch_size shuffle loss 0 k = .ok ts
    rw [hds, hB]
    exact hts
  · unfold totalSteps
    rw [map_sum_const ts _ (N / B) (fun t ht => (hall t ht).1), hlen]

/-- Witness for C3: 64 samples, batch size 16, three epochs: 12 steps. -/
theorem train_step_count_witness :
    ∃ ts, exTrainer64.train 3 exShuffle exLoss = .ok ts ∧ ts.length = 3 ∧
      totalSteps ts = 3 * (64 / 16) ∧
      ∀ t ∈ ts, t.batches.length = 64 / 16 ∧
        ∀ b ∈ t.batches, b.length = 16 ∧ ∀ x ∈ b, x ∈ exDataset64.samples :=
  train_step_count exTrainer64 exDataset64 64 16 3 exShuffle exLoss rfl rfl
    (by decide) (by decide) (by decide) (fun e l => List.Perm.refl l)

/-! ### Claim C4 -/

/-- Claim C4: in every epoch a successful `train` records, the reported
loss EWMA equals the fold of `new = 0.9 * old + 0.1 * loss` over that
epoch's batch losses, seeded with the first batch's loss (the batch-loss
list is non-empty whenever the epoch completes). -/
theorem train_loss_ewma_recurrence (tr : BCTrainer) (k : Nat)
    (shuffle : Nat → List (Int × Int) → List (Int × Int)) (loss : Nat → Nat → ℚ)
    (ts : List EpochTrace) (t : EpochTrace)
    (hok : tr.train k shuffle loss = .ok ts) (ht : t ∈ ts) :
    t.losses ≠ [] ∧ t.loss_ewma = specEwma t.losses.headI t.losses.tail := by
  rcases trainLoop_mem tr.batch_size shuffle loss tr.expert_dataset k 0 ts t hok ht with
    ⟨d, e, hds, hre⟩
  rcases runEpoch_ok_inversion d tr.batch_size e shuffle loss t hre with
    ⟨h1, h2, hne, heq⟩
  exact ⟨hne, heq⟩

/-- Witness for C4: one epoch over a single one-sample batch with loss 0
reports an EWMA equal to its seed, the first (and only) batch loss. -/
theorem train_loss_ewma_recurrence_witness :
    exTraceOne.losses ≠ [] ∧
    exTraceOne.loss_ewma = specEwma exTraceOne.losses.headI exTraceOne.losses.tail :=
  train_loss_ewma_recurrence exTrainerOne 1 exShuffle exLossZero [exTraceOne]
    exTraceOne rfl (List.mem_singleton.mpr rfl)

/-! ### Claim C5 -/

/-- Claim C5, as stated, is false: there is no NoDatasetError check in
`train`. A trainer constructed with `expert_demos=None` (here literally
the trainer `bcInit` returns) on which `set_expert_dataset` was never
called completes `train(n_epochs=0)` successfully, raising nothing and
performing no optimizer step — the claim required every call to raise. -/
theorem train_no_dataset_counterexample :
    bcInit [] none exSpec 32 "AdamOptimizer" none =
      .ok ([⟨["bc_supervised_loss", "model", "w"], [0], [0]⟩], exNoDataTrainer) ∧
    exNoDataTrainer.train 0 exShuffle exLoss = .ok [] :=
  ⟨rfl, rfl⟩

/-- Claim C5 (amended): with no dataset ever set, `train(n_epochs >= 1)`
fails before any optimizer step — with the AttributeError of reading
`n_samples` on the missing dataset, not a dedicated NoDatasetError — and
`train(n_epochs = 0)` returns successfully without performing a step. -/
theorem train_no_dataset_errors (tr : BCTrainer) (k : Nat)
    (shuffle : Nat → List (Int × Int) → List (Int × Int)) (loss : Nat → Nat → ℚ)
    (hds : tr.expert_dataset = none) :
    (1 ≤ k → tr.train k shuffle loss =
      .error (.attributeError "NoneType object has no attribute n_samples")) ∧
    tr.train 0 shuffle loss = .ok [] := by
  constructor
  · intro hk
    unfold BCTrainer.train
    rw [hds]
    cases k with
    | zero => exact absurd hk (by omega)
    | succ m => rfl
  · rfl

/-- Witness for the amended C5: the `bcInit`-built trainer with no dataset
errors at one epoch and returns at zero epochs. -/
theorem train_no_dataset_errors_witness :
    exNoDataTrainer.train 1 exShuffle exLoss =
      .error (.attributeError "NoneType object has no attribute n_samples") ∧
    exNoDataTrainer.train 0 exShuffle exLoss = .ok [] :=
  ⟨(train_no_dataset_errors exNoDataTrainer 1 exShuffle exLoss rfl).1 (by decide),
   (train_no_dataset_errors exNoDataTrainer 0 exShuffle exLoss rfl).2⟩

/-! ### Claim C10 -/

/-- Claim C10: when the dataset is strictly smaller than the batch size,
the pass yields zero batches, so the loss EWMA is never seeded and the
end-of-epoch report of the unseeded value raises (the TypeError of
formatting None) instead of completing the epoch. -/
theorem train_small_dataset_raises (tr : BCTrainer) (d : Dataset) (k : Nat)
    (shuffle : Nat → List (Int × Int) → List (Int × Int)) (loss : Nat → Nat → ℚ)
    (hds : tr.expert_dataset = some d) (hk : 1 ≤ k)
    (hsh : ∀ e l, List.Perm (shuffle e l) l)
    (hlt : d.n_samples < tr.batch_size) :
    tr.train k shuffle loss =
      .error (.typeError "float argument required, not NoneType") := by
  unfold BCTrainer.train
  rw [hds]
  cases k with
  | zero => exact absurd hk (by omega)
  | succ m =>
    have hre : runEpoch d tr.batch_size 0 shuffle loss =
        .error (.typeError "float argument required, not NoneType") := by
      have hlen : (shuffle 0 d.samples).length < tr.batch_size := by
        rw [(hsh 0 d.samples).length_eq]
        exact hlt
      simp only [runEpoch]
      rw [fullBatches_eq_nil_of_lt _ _ hlen]
      rfl
    simp only [trainLoop]
    rw [hre]

/-- Witness for C10: one sample, batch size two, one epoch. -/
theorem train_small_dataset_raises_witness :
    exTrainer1.train 1 exShuffle exLoss =
      .error (.typeError "float argument required, not NoneType") :=
  train_small_dataset_raises exTrainer1 exDataset1 1 exShuffle exLoss rfl
    (by decide) (fun e l => List.Perm.refl l) (by decide)

end BC
